import Mathlib

/-!
# Prompt Guessr backend: verified model of the game core

A shallow embedding of the server-authoritative game engine of the
prompt-guessr repository: the scoring engine (similarity and point award),
the room and game service operations relevant to the phase state machine
(submitPrompt, submitGuess, scoreRound, completeReveal), the room-code
generator and validator, and the Redis serialization layer.

Modelling conventions:
* JavaScript numbers are modelled as rationals (all arithmetic in the
  embedded code stays on small integers and small fractions).
* A JavaScript insertion-ordered Map with string keys is modelled as an
  association list, with set and get mirroring Map.set / Map.get
  (set replaces the value in place for an existing key, appends otherwise).
* A plain JavaScript object used as a string-keyed dictionary follows the
  same semantics (the repository only uses non-integer-like uuid keys, for
  which JS object property order is insertion order).
* Date.now() and uuidv4() are passed in as explicit parameters.
* Throwing service functions return an Except with the thrown message.
-/

deriving instance DecidableEq for Except

namespace PromptGuessr

/-! ## JS Map / object model -/

/-- A JS insertion-ordered string-keyed Map, as an association list. -/
abbrev JSMap (V : Type) : Type := List (String × V)

/-- JS Map.get: value of the first (in a well-formed map, the only) entry
for the key. -/
def mapGet {V : Type} : JSMap V → String → Option V
  | [], _ => none
  | (k', v') :: rest, k => if k' = k then some v' else mapGet rest k

/-- JS Map.set: replaces the entry for the key in place, appends a new
entry otherwise. -/
def mapSet {V : Type} : JSMap V → String → V → JSMap V
  | [], k, v => [(k, v)]
  | (k', v') :: rest, k, v =>
    if k' = k then (k, v) :: rest else (k', v') :: mapSet rest k v

/-- Keys of a map, in order. -/
def mapKeys {V : Type} (m : JSMap V) : List String := m.map Prod.fst

/-- Well-formedness of a JS map model: one entry per key. -/
def mapWF {V : Type} (m : JSMap V) : Prop := (m.map Prod.fst).Nodup

instance {V : Type} (m : JSMap V) : Decidable (mapWF m) := by
  unfold mapWF; infer_instance

/-! ## JS number helpers -/

/-- JS Math.round: round half toward positive infinity. -/
def jsRound (q : ℚ) : ℚ := (⌊q + 1/2⌋ : ℤ)

/-- Arithmetic mean as computed by reduce-and-divide. For the empty list JS
produces NaN; every comparison against NaN is false, so callers that compare
the mean use meanLt below. -/
def meanQ (xs : List ℚ) : ℚ := xs.sum / (xs.length : ℚ)

/-- mean(xs) < c as JS evaluates it: false on the empty list (NaN). -/
def meanLt (xs : List ℚ) (c : ℚ) : Prop := xs ≠ [] ∧ meanQ xs < c

instance (xs : List ℚ) (c : ℚ) : Decidable (meanLt xs c) := by
  unfold meanLt; infer_instance

/-- JS array read arr[q] for a number index: defined only for canonical
integer indices within bounds. -/
def listGetNum {α : Type} (l : List α) (q : ℚ) : Option α :=
  if q.den = 1 ∧ 0 ≤ q.num ∧ q.num.toNat < l.length then l.get? q.num.toNat
  else none

/-- In-place update of the element at a number index (mutation of the object
held at rounds[i] in the source); leaves the list unchanged when the index is
not a valid position. -/
def listSetNum {α : Type} (l : List α) (q : ℚ) (a : α) : List α :=
  if q.den = 1 ∧ 0 ≤ q.num ∧ q.num.toNat < l.length then l.set q.num.toNat a
  else l

/-! ## JS string helpers (ASCII model of the operations the code uses) -/

/-- Whitespace as matched by the \s regex class (ASCII model). -/
def isWsChar (c : Char) : Bool :=
  c = ' ' ∨ c = '\t' ∨ c = '\n' ∨ c = '\r' ∨ c = '\x0b' ∨ c = '\x0c'

/-- Word characters as matched by the \w regex class. -/
def isWordChar (c : Char) : Bool :=
  ('a' ≤ c ∧ c ≤ 'z') ∨ ('A' ≤ c ∧ c ≤ 'Z') ∨ ('0' ≤ c ∧ c ≤ '9') ∨ c = '_'

/-- String.prototype.toLowerCase (ASCII model). -/
def jsToLower (s : List Char) : List Char := s.map Char.toLower

/-- String.prototype.trim: strip leading and trailing whitespace. -/
def jsTrim (s : List Char) : List Char :=
  ((s.dropWhile isWsChar).reverse.dropWhile isWsChar).reverse

/-- Split on whitespace runs and drop empty chunks: the composition
split(/\s+/) followed by filtering empty strings in the source. -/
def wordsAux : List Char → List Char → List (List Char)
  | [], acc => if acc = [] then [] else [acc.reverse]
  | c :: cs, acc =>
    if isWsChar c then
      if acc = [] then wordsAux cs [] else acc.reverse :: wordsAux cs []
    else wordsAux cs (c :: acc)

def splitWords (s : List Char) : List (List Char) := wordsAux s []

/-! ## Scoring engine (src/services/scoring-service.ts) -/

/-- tokenize: replace every character that is neither a word character nor
whitespace with a space, then split on whitespace and drop empty tokens. -/
def tokenize (text : List Char) : List (List Char) :=
  splitWords (text.map (fun c => if ¬ isWordChar c ∧ ¬ isWsChar c then ' ' else c))

/-- Inner loop of the levenshteinDistance matrix fill: given the previous
row, the value diagonally above-left (prev0), the value to the left just
computed (left), and the remaining characters of str2 paired with the rest
of the previous row, produce the remaining entries of the new row, each
min(deletion, insertion, substitution). -/
def levRowAux (c1 : Char) : ℕ → ℕ → List Char → List ℕ → List ℕ
  | _, _, [], _ => []
  | _, _, _ :: _, [] => []
  | prev0, left, c2 :: cs, prev1 :: prevRest =>
    let cost : ℕ := if c1 = c2 then 0 else 1
    let v := min (min (prev1 + 1) (left + 1)) (prev0 + cost)
    v :: levRowAux c1 prev1 v cs prevRest

/-- One outer iteration of the matrix fill: row i+1 from row i. The new
row starts with i+1 = prev[0] + 1 (the first-column initialization). -/
def levRow (c1 : Char) (s2 : List Char) (prev : List ℕ) : List ℕ :=
  match prev with
  | [] => []
  | p0 :: rest => (p0 + 1) :: levRowAux c1 p0 (p0 + 1) s2 rest

/-- levenshteinDistance: the DP matrix of the source, filled row by row;
row 0 is [0, 1, ..., len2] and the answer is matrix[len1][len2], the last
entry of the final row. -/
def levenshteinDistance (str1 str2 : List Char) : ℕ :=
  let finalRow := str1.foldl (fun row c1 => levRow c1 str2 row)
    (List.range (str2.length + 1))
  (finalRow.getLast?).getD 0

/-- levenshteinSimilarity: 1 - distance / maxLength, and 1 when both
strings are empty. -/
def levenshteinSimilarity (str1 str2 : List Char) : ℚ :=
  let distance := levenshteinDistance str1 str2
  let maxLength := max str1.length str2.length
  if maxLength = 0 then 1 else 1 - (distance : ℚ) / (maxLength : ℚ)

/-- calculateSimilarityScore: exact translation of the source. Note the
intersection is computed by filtering the original token list, so an
original token occurring twice that appears among the guess tokens is
counted twice; the union is a deduplicated set. -/
def calculateSimilarityScore (originalPrompt guess : String) : ℚ :=
  let original := jsTrim (jsToLower originalPrompt.data)
  let guessText := jsTrim (jsToLower guess.data)
  if original = guessText then 100
  else
    let originalTokens := tokenize original
    let guessTokens := tokenize guessText
    let intersection := originalTokens.filter (fun t => guessTokens.contains t)
    let unionSize := (originalTokens ++ guessTokens).dedup.length
    let keywordSimilarity : ℚ :=
      if unionSize > 0 then (intersection.length : ℚ) / (unionSize : ℚ) else 0
    let stringSimilarity := levenshteinSimilarity original guessText
    let finalScore := jsRound ((keywordSimilarity * 0.6 + stringSimilarity * 0.4) * 100)
    max 0 (min 100 finalScore)

/-- The similarity formula exactly as claim C3 states it: k is the
set-Jaccard similarity of the two token sets (intersection and union both
as finite sets). Stated for comparison with calculateSimilarityScore. -/
def similarityClaimFormula (originalPrompt guess : String) : ℚ :=
  let original := jsTrim (jsToLower originalPrompt.data)
  let guessText := jsTrim (jsToLower guess.data)
  if original = guessText then 100
  else
    let a := tokenize original
    let b := tokenize guessText
    let unionCard := (a.toFinset ∪ b.toFinset).card
    let k : ℚ :=
      if unionCard > 0 then ((a.toFinset ∩ b.toFinset).card : ℚ) / (unionCard : ℚ) else 0
    let l := levenshteinSimilarity original guessText
    max 0 (min 100 (jsRound (100 * (0.6 * k + 0.4 * l))))

/-- The similarity formula of claim C3 amended where the counterexample
forces it: k's numerator counts the original's tokens with multiplicity
(each original token that occurs among the guess tokens counts once per
occurrence in the original); the denominator is still the cardinality of
the union of the two token sets. -/
def similarityAmendedFormula (originalPrompt guess : String) : ℚ :=
  let original := jsTrim (jsToLower originalPrompt.data)
  let guessText := jsTrim (jsToLower guess.data)
  if original = guessText then 100
  else
    let a := tokenize original
    let b := tokenize guessText
    let unionCard := (a.toFinset ∪ b.toFinset).card
    let k : ℚ :=
      if unionCard > 0 then ((a.countP (fun t => b.contains t)) : ℚ) / (unionCard : ℚ) else 0
    let l := levenshteinSimilarity original guessText
    max 0 (min 100 (jsRound (100 * (0.6 * k + 0.4 * l))))

/-- calculatePoints: every guesser earns round(score); the image creator
earns +50 on top when the average score is below 40. Empty score lists
yield no points. -/
def calculatePoints (scores : List (String × ℚ)) (imageCreatorId : String) :
    JSMap ℚ :=
  if scores = [] then []
  else
    let points := scores.foldl (fun m p => mapSet m p.1 (jsRound p.2)) []
    let avgScore := (scores.map Prod.snd).sum / (scores.length : ℚ)
    if avgScore < 40 then
      mapSet points imageCreatorId (((mapGet points imageCreatorId).getD 0) + 50)
    else points

/-! ## Data model (shared/types) -/

inductive RoomStatus
  | lobby | playing | finished
deriving DecidableEq, Repr

inductive GameStatus
  | waiting | prompt_submit | image_generate | image_select | reveal_guess
  | scoring | reveal_results | round_end | game_end
deriving DecidableEq, Repr

inductive RoundStatus
  | prompt_submit | image_generate | image_select | reveal_guess
  | scoring | reveal_results | completed
deriving DecidableEq, Repr

inductive PromptStatus
  | pending | generating | ready | failed | rejected
deriving DecidableEq, Repr

inductive ImageStatus
  | queued | generating | complete | failed
deriving DecidableEq, Repr

structure Player where
  id : String
  sessionId : String
  displayName : String
  isHost : Bool
  isReady : Bool
  isConnected : Bool
  joinedAt : ℚ
  lastSeenAt : ℚ
deriving DecidableEq, Repr

structure ImageMetadata where
  model : String
  revisedPrompt : Option String
  generationTime : ℚ
deriving DecidableEq, Repr

structure GeneratedImage where
  id : String
  promptId : String
  playerId : String
  imageUrl : String
  thumbnailUrl : String
  provider : String
  providerImageId : String
  status : ImageStatus
  generatedAt : ℚ
  metadata : ImageMetadata
deriving DecidableEq, Repr

structure PromptSubmission where
  playerId : String
  prompt : String
  submittedAt : ℚ
  images : List GeneratedImage
  status : PromptStatus
deriving DecidableEq, Repr

structure ImageSelection where
  playerId : String
  imageId : String
  selectedAt : ℚ
deriving DecidableEq, Repr

structure Guess where
  id : String
  imageId : String
  playerId : String
  guessText : String
  submittedAt : ℚ
  score : Option ℚ
deriving DecidableEq, Repr

structure PlayerScore where
  playerId : String
  displayName : String
  totalScore : ℚ
  roundScores : List ℚ
  guessWins : ℚ
  promptPicks : ℚ
deriving DecidableEq, Repr

structure Leaderboard where
  scores : JSMap PlayerScore
  rankings : List String
deriving DecidableEq, Repr

structure Round where
  id : String
  roundNumber : ℚ
  prompts : JSMap PromptSubmission
  selections : JSMap ImageSelection
  guesses : JSMap (JSMap Guess)
  currentRevealIndex : ℚ
  currentResultIndex : ℚ
  bonusPoints : JSMap ℚ
  scores : JSMap ℚ
  status : RoundStatus
  startedAt : ℚ
  finishedAt : Option ℚ
deriving DecidableEq, Repr

structure Game where
  id : String
  roomId : String
  status : GameStatus
  currentRound : ℚ
  rounds : List Round
  leaderboard : Leaderboard
  createdAt : ℚ
  startedAt : Option ℚ
  finishedAt : Option ℚ
deriving DecidableEq, Repr

structure RoomSettings where
  roundCount : ℚ
  promptTimeLimit : ℚ
  selectionTimeLimit : ℚ
  guessingTimeLimit : ℚ
  resultsTimeLimit : ℚ
  imageCount : ℚ
deriving DecidableEq, Repr

structure Room where
  id : String
  code : String
  createdAt : ℚ
  createdBy : String
  status : RoomStatus
  hostId : String
  players : JSMap Player
  maxPlayers : ℚ
  settings : RoomSettings
  game : Option Game
deriving DecidableEq, Repr

/-! ## Room and game service (room-service operations used by the claims).
Each operation takes the current Room state (the source loads it from the
store by id at entry and persists the mutated state before returning) and
returns the new state or the thrown error message. -/

/-- getCurrentRound: game.rounds[game.currentRound - 1], or the thrown
error when absent. -/
def getCurrentRound (game : Game) : Except String Round :=
  match listGetNum game.rounds (game.currentRound - 1) with
  | some r => .ok r
  | none => .error "No active round"

/-- submitPrompt: store a pending submission for the player, and move the
round and game to image_generate when every player has submitted. -/
def submitPrompt (room : Room) (playerId prompt : String) (now : ℚ) :
    Except String (Room × Bool) :=
  match room.game with
  | none => .error "No active game"
  | some game =>
    match listGetNum game.rounds (game.currentRound - 1) with
    | none => .error "No active round"
    | some currentRound =>
      if currentRound.status ≠ RoundStatus.prompt_submit then
        .error "Not in prompt submission phase"
      else
        let prompts := mapSet currentRound.prompts playerId
          { playerId := playerId, prompt := prompt, submittedAt := now,
            images := [], status := PromptStatus.pending }
        let allSubmitted := prompts.length = room.players.length
        let cr :=
          if allSubmitted then
            { currentRound with prompts := prompts, status := RoundStatus.image_generate }
          else { currentRound with prompts := prompts }
        let gameStatus := if allSubmitted then GameStatus.image_generate else game.status
        let game' := { game with
          rounds := listSetNum game.rounds (game.currentRound - 1) cr,
          status := gameStatus }
        .ok ({ room with game := some game' }, allSubmitted)

/-- submitGuess: store the guess under guesses[imageId][playerId], then
advance the reveal index or transition to scoring when the expected number
of guesses for this image has arrived. -/
def submitGuess (room : Room) (playerId imageId guessText : String)
    (guessId : String) (now : ℚ) : Except String (Room × Bool) :=
  match room.game with
  | none => .error "No active game"
  | some game =>
    match listGetNum game.rounds (game.currentRound - 1) with
    | none => .error "No active round"
    | some currentRound =>
      if currentRound.status ≠ RoundStatus.reveal_guess then
        .error "Not in guessing phase"
      else
        let imageGuesses := (mapGet currentRound.guesses imageId).getD []
        let imageGuesses := mapSet imageGuesses playerId
          { id := guessId, imageId := imageId, playerId := playerId,
            guessText := guessText, submittedAt := now, score := none }
        let guesses := mapSet currentRound.guesses imageId imageGuesses
        let imageSubmitter :=
          ((currentRound.selections.map Prod.snd).find?
            (fun sel => sel.imageId == imageId)).map ImageSelection.playerId
        let expectedGuesses : ℚ :=
          if imageSubmitter.isSome then (room.players.length : ℚ) - 1
          else (room.players.length : ℚ)
        let allGuessed := (imageGuesses.length : ℚ) ≥ expectedGuesses
        let totalImages := currentRound.selections.length
        let cr :=
          if allGuessed then
            if currentRound.currentRevealIndex < (totalImages : ℚ) - 1 then
              { currentRound with
                guesses := guesses,
                currentRevealIndex := currentRound.currentRevealIndex + 1 }
            else
              { currentRound with guesses := guesses, status := RoundStatus.scoring }
          else { currentRound with guesses := guesses }
        let gameStatus :=
          if allGuessed ∧ ¬ currentRound.currentRevealIndex < (totalImages : ℚ) - 1 then
            GameStatus.scoring
          else game.status
        let game' := { game with
          rounds := listSetNum game.rounds (game.currentRound - 1) cr,
          status := gameStatus }
        .ok ({ room with game := some game' }, allGuessed)

/-- Accumulator for the per-image loop of scoreRound: the rebuilt guesses
entries (with scores written into the guess objects), the bonus-point map
and the per-round score map. -/
structure ScoreAcc where
  guesses : JSMap (JSMap Guess)
  bonusPoints : JSMap ℚ
  scores : JSMap ℚ
deriving DecidableEq, Repr

/-- Body of the per-image loop of scoreRound: skip entries whose imageId
matches no selection (or whose selecting player has no prompt); otherwise
score every guess on the image, award points, and record the stumper bonus
when the average similarity is below 40. -/
def processImage (selections : JSMap ImageSelection)
    (prompts : JSMap PromptSubmission) (acc : ScoreAcc)
    (entry : String × JSMap Guess) : ScoreAcc :=
  let imageId := entry.1
  let imageGuesses := entry.2
  match (selections.map Prod.snd).find? (fun sel => sel.imageId == imageId) with
  | none => { acc with guesses := acc.guesses ++ [(imageId, imageGuesses)] }
  | some selection =>
    match mapGet prompts selection.playerId with
    | none => { acc with guesses := acc.guesses ++ [(imageId, imageGuesses)] }
    | some promptSubmission =>
      let originalPrompt := promptSubmission.prompt
      let imageCreatorId := selection.playerId
      let newImageGuesses := imageGuesses.map (fun p =>
        (p.1, { p.2 with
          score := some (calculateSimilarityScore originalPrompt p.2.guessText) }))
      let scoredGuesses := imageGuesses.map (fun p =>
        (p.1, calculateSimilarityScore originalPrompt p.2.guessText))
      let pointsAwarded := calculatePoints scoredGuesses imageCreatorId
      let bonusPoints :=
        if meanLt (scoredGuesses.map Prod.snd) 40 then
          mapSet acc.bonusPoints imageId 50
        else acc.bonusPoints
      let scores := pointsAwarded.foldl
        (fun sc p => mapSet sc p.1 (((mapGet sc p.1).getD 0) + p.2)) acc.scores
      { guesses := acc.guesses ++ [(imageId, newImageGuesses)],
        bonusPoints := bonusPoints, scores := scores }

/-- Leaderboard update loop of scoreRound: for each entry of the freshly
computed round score map, add the round score to the player's total and
append it to their roundScores, creating a zeroed entry first for a player
missing from the leaderboard. -/
def updateLeaderboardScores (players : JSMap Player)
    (lb : JSMap PlayerScore) (roundScores : JSMap ℚ) : JSMap PlayerScore :=
  roundScores.foldl (fun lb e =>
    let playerScore :=
      match mapGet lb e.1 with
      | some ps => ps
      | none =>
        { playerId := e.1,
          displayName :=
            match mapGet players e.1 with
            | some p => p.displayName
            | none => "Unknown",
          totalScore := 0, roundScores := [], guessWins := 0, promptPicks := 0 }
    mapSet lb e.1 { playerScore with
      totalScore := playerScore.totalScore + e.2,
      roundScores := playerScore.roundScores ++ [e.2] }) lb

/-- Stable insertion of a player score into a list sorted by totalScore
descending: placed before the first element whose total it reaches. -/
def insertScoreDesc (x : PlayerScore) : List PlayerScore → List PlayerScore
  | [] => [x]
  | y :: ys =>
    if x.totalScore ≥ y.totalScore then x :: y :: ys else y :: insertScoreDesc x ys

/-- The sort the source performs with Array.prototype.sort and the
comparator (a, b) => b.totalScore - a.totalScore: JS sort is stable, and a
stable sort under a consistent comparator is unique, so it equals this
stable insertion sort. -/
def sortByTotalScoreDesc (l : List PlayerScore) : List PlayerScore :=
  l.foldr insertScoreDesc []

/-- scoreRound: score every image's guesses, award points, update the
leaderboard and rankings, and transition to reveal_results. -/
def scoreRound (room : Room) : Except String Room :=
  match room.game with
  | none => .error "No active game"
  | some game =>
    match listGetNum game.rounds (game.currentRound - 1) with
    | none => .error "No active round"
    | some currentRound =>
      if currentRound.status ≠ RoundStatus.scoring then
        .error "Not in scoring phase"
      else
        let acc0 : ScoreAcc :=
          { guesses := [], bonusPoints := currentRound.bonusPoints, scores := [] }
        let acc := currentRound.guesses.foldl
          (processImage currentRound.selections currentRound.prompts) acc0
        let lbScores :=
          updateLeaderboardScores room.players game.leaderboard.scores acc.scores
        let rankings :=
          (sortByTotalScoreDesc (lbScores.map Prod.snd)).map PlayerScore.playerId
        let cr := { currentRound with
          guesses := acc.guesses, bonusPoints := acc.bonusPoints,
          scores := acc.scores, status := RoundStatus.reveal_results }
        let game' := { game with
          rounds := listSetNum game.rounds (game.currentRound - 1) cr,
          leaderboard := { scores := lbScores, rankings := rankings },
          status := GameStatus.reveal_results }
        .ok { room with game := some game' }

/-- completeReveal: a no-op outside reveal_results; otherwise mark the round
completed and move the game to game_end or round_end. -/
def completeReveal (room : Room) (now : ℚ) : Except String Room :=
  match room.game with
  | none => .error "No active game"
  | some game =>
    match listGetNum game.rounds (game.currentRound - 1) with
    | none => .error "No active round"
    | some currentRound =>
      if game.status ≠ GameStatus.reveal_results then .ok room
      else
        let cr := { currentRound with
          status := RoundStatus.completed, finishedAt := some now }
        let rounds := listSetNum game.rounds (game.currentRound - 1) cr
        if game.currentRound ≥ room.settings.roundCount then
          .ok { room with game := some { game with
            rounds := rounds, status := GameStatus.game_end,
            finishedAt := some now } }
        else
          .ok { room with game := some { game with
            rounds := rounds, status := GameStatus.round_end } }

/-! ## Room code generator (src/utils/code-generator.ts) -/

/-- Character set for room codes (uppercase letters and digits, excluding
I, O, 0, 1). -/
def CHARACTERS : String := "ABCDEFGHJKLMNPQRSTUVWXYZ23456789"

/-- JS string character read s[i]: the one-character string at a valid
index, the string "undefined" concatenated otherwise (reading past the end
yields undefined, which += coerces to "undefined"). -/
def jsCharIndex (s : List Char) (i : ℤ) : List Char :=
  if h : 0 ≤ i ∧ i.toNat < s.length then [s.get ⟨i.toNat, h.2⟩]
  else "undefined".data

/-- generateRoomCode: length (default 4) characters, each picked by
Math.floor(Math.random() * CHARACTERS.length); the i-th call of
Math.random() is modelled by rand i. -/
def generateRoomCode (rand : ℕ → ℚ) (length : ℕ := 4) : List Char :=
  (List.range length).foldl
    (fun code i => code ++ jsCharIndex CHARACTERS.data ⌊rand i * (CHARACTERS.data.length : ℚ)⌋)
    []

/-- isValidRoomCode: non-empty, every character from CHARACTERS (the
regex test), and length between 4 and 8. -/
def isValidRoomCode (code : String) : Bool :=
  ¬ code = "" ∧
  (code.data ≠ [] ∧ code.data.all (fun c => CHARACTERS.data.contains c)) ∧
  4 ≤ code.length ∧ code.length ≤ 8

/-! ## Redis serialization (src/storage/room-repository.ts)

The serialized tree mirrors what JSON.stringify receives: every Map has
become a plain object (modelled as the same association list, JS objects
with non-integer-like string keys being insertion-ordered), and the nested
guesses map has become an array of [imageId, object] pairs. The
JSON.stringify / JSON.parse round trip is the identity on these trees and
is not modelled separately. -/

/-- A plain JS object used as a string-keyed dictionary. -/
abbrev JSObject (V : Type) : Type := List (String × V)

/-- Object.fromEntries: builds an object by assigning each entry in order;
assigning an existing key overwrites its value in place, a new key is
appended (same semantics as Map.set for string keys). -/
def fromEntries {V : Type} (m : JSMap V) : JSObject V :=
  m.foldl (fun o p => mapSet o p.1 p.2) []

/-- Object.entries: own enumerable string-keyed properties in insertion
order (the keys in this model are never integer-like). -/
def objEntries {V : Type} (o : JSObject V) : JSMap V := o

/-- Serialized form of a Round. -/
structure SRound where
  id : String
  roundNumber : ℚ
  prompts : JSObject PromptSubmission
  selections : JSObject ImageSelection
  guesses : List (String × JSObject Guess)
  currentRevealIndex : ℚ
  currentResultIndex : ℚ
  bonusPoints : JSObject ℚ
  scores : JSObject ℚ
  status : RoundStatus
  startedAt : ℚ
  finishedAt : Option ℚ
deriving DecidableEq, Repr

/-- Serialized form of a Leaderboard. -/
structure SLeaderboard where
  scores : JSObject PlayerScore
  rankings : List String
deriving DecidableEq, Repr

/-- Serialized form of a Game. -/
structure SGame where
  id : String
  roomId : String
  status : GameStatus
  currentRound : ℚ
  rounds : List SRound
  leaderboard : SLeaderboard
  createdAt : ℚ
  startedAt : Option ℚ
  finishedAt : Option ℚ
deriving DecidableEq, Repr

/-- Serialized form of a Room. -/
structure SRoom where
  id : String
  code : String
  createdAt : ℚ
  createdBy : String
  status : RoomStatus
  hostId : String
  players : JSObject Player
  maxPlayers : ℚ
  settings : RoomSettings
  game : Option SGame
deriving DecidableEq, Repr

/-- serializeRound: spread the round, converting each Map to an object and
the nested guesses to an array of [imageId, object] pairs. -/
def serializeRound (round : Round) : SRound :=
  { id := round.id, roundNumber := round.roundNumber,
    prompts := fromEntries round.prompts,
    selections := fromEntries round.selections,
    guesses := round.guesses.map (fun p => (p.1, fromEntries p.2)),
    currentRevealIndex := round.currentRevealIndex,
    currentResultIndex := round.currentResultIndex,
    bonusPoints := fromEntries round.bonusPoints,
    scores := fromEntries round.scores,
    status := round.status, startedAt := round.startedAt,
    finishedAt := round.finishedAt }

/-- serializeGame. -/
def serializeGame (game : Game) : SGame :=
  { id := game.id, roomId := game.roomId, status := game.status,
    currentRound := game.currentRound,
    rounds := game.rounds.map serializeRound,
    leaderboard := { scores := fromEntries game.leaderboard.scores,
                     rankings := game.leaderboard.rankings },
    createdAt := game.createdAt, startedAt := game.startedAt,
    finishedAt := game.finishedAt }

/-- serializeRoom. -/
def serializeRoom (room : Room) : SRoom :=
  { id := room.id, code := room.code, createdAt := room.createdAt,
    createdBy := room.createdBy, status := room.status,
    hostId := room.hostId,
    players := fromEntries room.players,
    maxPlayers := room.maxPlayers, settings := room.settings,
    game := room.game.map serializeGame }

/-- deserializeGuesses, array branch: rebuild the nested Maps from the
array of [imageId, object] pairs. -/
def deserializeGuesses (guessesData : List (String × JSObject Guess)) :
    JSMap (JSMap Guess) :=
  guessesData.map (fun p => (p.1, objEntries p.2))

/-- deserializeRound. -/
def deserializeRound (roundData : SRound) : Round :=
  { id := roundData.id, roundNumber := roundData.roundNumber,
    prompts := objEntries roundData.prompts,
    selections := objEntries roundData.selections,
    guesses := deserializeGuesses roundData.guesses,
    currentRevealIndex := roundData.currentRevealIndex,
    currentResultIndex := roundData.currentResultIndex,
    bonusPoints := objEntries roundData.bonusPoints,
    scores := objEntries roundData.scores,
    status := roundData.status, startedAt := roundData.startedAt,
    finishedAt := roundData.finishedAt }

/-- deserializeLeaderboard. -/
def deserializeLeaderboard (leaderboardData : SLeaderboard) : Leaderboard :=
  { scores := objEntries leaderboardData.scores,
    rankings := leaderboardData.rankings }

/-- deserializeGame. -/
def deserializeGame (gameData : SGame) : Game :=
  { id := gameData.id, roomId := gameData.roomId, status := gameData.status,
    currentRound := gameData.currentRound,
    rounds := gameData.rounds.map deserializeRound,
    leaderboard := deserializeLeaderboard gameData.leaderboard,
    createdAt := gameData.createdAt, startedAt := gameData.startedAt,
    finishedAt := gameData.finishedAt }

/-- deserializeRoom. -/
def deserializeRoom (data : SRoom) : Room :=
  { id := data.id, code := data.code, createdAt := data.createdAt,
    createdBy := data.createdBy, status := data.status,
    hostId := data.hostId,
    players := objEntries data.players,
    maxPlayers := data.maxPlayers, settings := data.settings,
    game := data.game.map deserializeGame }

/-- Well-formedness of a stored Round: every map has one entry per key. -/
def RoundWF (rd : Round) : Prop :=
  mapWF rd.prompts ∧ mapWF rd.selections ∧ mapWF rd.guesses ∧
  (∀ e ∈ rd.guesses, mapWF e.2) ∧ mapWF rd.bonusPoints ∧ mapWF rd.scores

/-- Well-formedness of a stored Game. -/
def GameWF (g : Game) : Prop :=
  mapWF g.leaderboard.scores ∧ ∀ rd ∈ g.rounds, RoundWF rd

/-- Well-formedness of a stored Room. -/
def RoomWF (r : Room) : Prop :=
  mapWF r.players ∧ match r.game with
  | none => True
  | some g => GameWF g

instance (rd : Round) : Decidable (RoundWF rd) := by
  unfold RoundWF; infer_instance

instance (g : Game) : Decidable (GameWF g) := by
  unfold GameWF; infer_instance

instance (r : Room) : Decidable (RoomWF r) := by
  unfold RoomWF; cases r.game <;> simp <;> infer_instance

/-! ## Projections on operation results, for stating concrete evaluations -/

/-- The room produced by a throwing operation, if it succeeded. -/
def roomOf (e : Except String Room) : Option Room :=
  match e with
  | .ok r => some r
  | .error _ => none

/-- The room produced by an operation returning a room and a flag. -/
def roomOfPair (e : Except String (Room × Bool)) : Option Room :=
  match e with
  | .ok p => some p.1
  | .error _ => none

/-- The boolean flag produced by an operation returning a room and a flag. -/
def flagOfPair (e : Except String (Room × Bool)) : Option Bool :=
  match e with
  | .ok p => some p.2
  | .error _ => none

/-- The game status of the produced room. -/
def gameStatusOf (r : Room) : Option GameStatus := r.game.map Game.status

/-- The current round of a room. -/
def currentRoundOf (r : Room) : Option Round :=
  r.game.bind (fun g => listGetNum g.rounds (g.currentRound - 1))

/-- The guess stored under guesses[imageId][playerId] of the current round. -/
def storedGuess (r : Room) (imageId playerId : String) : Option Guess :=
  (currentRoundOf r).bind (fun cr =>
    (mapGet cr.guesses imageId).bind (fun gm => mapGet gm playerId))

/-- The prompt submission stored for a player in the current round. -/
def storedPrompt (r : Room) (playerId : String) : Option PromptSubmission :=
  (currentRoundOf r).bind (fun cr => mapGet cr.prompts playerId)

/-- The leaderboard entry of a player. -/
def lbEntry (r : Room) (playerId : String) : Option PlayerScore :=
  r.game.bind (fun g => mapGet g.leaderboard.scores playerId)

/-! ## Concrete fixtures -/

def mkPlayer (pid name : String) (host : Bool) (joined : ℚ) : Player :=
  { id := pid, sessionId := "s-" ++ pid, displayName := name, isHost := host,
    isReady := true, isConnected := true, joinedAt := joined, lastSeenAt := joined }

def mkPlayerScore (pid name : String) : PlayerScore :=
  { playerId := pid, displayName := name, totalScore := 0, roundScores := [],
    guessWins := 0, promptPicks := 0 }

def settingsFix : RoomSettings :=
  { roundCount := 3, promptTimeLimit := 90, selectionTimeLimit := 45,
    guessingTimeLimit := 60, resultsTimeLimit := 15, imageCount := 4 }

/-- A two-player room in the reveal_guess phase: Alice selected img1, Bob
selected img2, no guesses yet. -/
def roundFixA : Round :=
  { id := "r1", roundNumber := 1,
    prompts :=
      [("p1", { playerId := "p1", prompt := "a blue cat", submittedAt := 1,
                images := [], status := PromptStatus.ready }),
       ("p2", { playerId := "p2", prompt := "a red dog", submittedAt := 1,
                images := [], status := PromptStatus.ready })],
    selections :=
      [("p1", { playerId := "p1", imageId := "img1", selectedAt := 2 }),
       ("p2", { playerId := "p2", imageId := "img2", selectedAt := 2 })],
    guesses := [], currentRevealIndex := 0, currentResultIndex := 0,
    bonusPoints := [], scores := [], status := RoundStatus.reveal_guess,
    startedAt := 0, finishedAt := none }

def gameFixA : Game :=
  { id := "g1", roomId := "room1", status := GameStatus.reveal_guess,
    currentRound := 1, rounds := [roundFixA],
    leaderboard :=
      { scores := [("p1", mkPlayerScore "p1" "Alice"), ("p2", mkPlayerScore "p2" "Bob")],
        rankings := ["p1", "p2"] },
    createdAt := 0, startedAt := some 0, finishedAt := none }

def roomFixA : Room :=
  { id := "room1", code := "ABCD", createdAt := 0, createdBy := "p1",
    status := RoomStatus.playing, hostId := "p1",
    players := [("p1", mkPlayer "p1" "Alice" true 0), ("p2", mkPlayer "p2" "Bob" false 1)],
    maxPlayers := 8, settings := settingsFix, game := some gameFixA }

/-- A two-player room ready for scoring: only Bob's image img2 drew a guess
(by Alice, matching the prompt exactly), so only Alice appears in the
computed round scores. -/
def roundFixB : Round :=
  { roundFixA with
    guesses :=
      [("img2", [("p1", { id := "gA", imageId := "img2", playerId := "p1",
                          guessText := "a red dog", submittedAt := 3, score := none })])],
    status := RoundStatus.scoring }

def gameFixB : Game :=
  { gameFixA with rounds := [roundFixB], status := GameStatus.scoring }

def roomFixB : Room := { roomFixA with game := some gameFixB }

/-- A two-player room ready for scoring with no guesses at all. -/
def roundFixC : Round := { roundFixA with status := RoundStatus.scoring }

def gameFixC : Game :=
  { gameFixA with rounds := [roundFixC], status := GameStatus.scoring }

def roomFixC : Room := { roomFixA with game := some gameFixC }

/-- The room produced by scoreRound on roomFixC: no guesses, so the
leaderboard entries are untouched and the rankings are rebuilt in stable
(insertion) order. -/
def gameFixCResult : Game :=
  { gameFixA with
    rounds := [{ roundFixC with status := RoundStatus.reveal_results }],
    leaderboard :=
      { scores := [("p1", mkPlayerScore "p1" "Alice"), ("p2", mkPlayerScore "p2" "Bob")],
        rankings := ["p1", "p2"] },
    status := GameStatus.reveal_results }

def resultFixC : Room := { roomFixA with game := some gameFixCResult }

/-- A two-player room in prompt_submit where Alice has already submitted. -/
def roundFixD : Round :=
  { id := "r1", roundNumber := 1,
    prompts :=
      [("p1", { playerId := "p1", prompt := "first prompt", submittedAt := 1,
                images := [], status := PromptStatus.pending })],
    selections := [], guesses := [], currentRevealIndex := 0,
    currentResultIndex := 0, bonusPoints := [], scores := [],
    status := RoundStatus.prompt_submit, startedAt := 0, finishedAt := none }

def gameFixD : Game :=
  { gameFixA with rounds := [roundFixD], status := GameStatus.prompt_submit }

def roomFixD : Room := { roomFixA with game := some gameFixD }

/-- A two-player room in reveal_results (round 1 of 3). -/
def roundFixE : Round := { roundFixA with status := RoundStatus.reveal_results }

def gameFixE : Game :=
  { gameFixA with rounds := [roundFixE], status := GameStatus.reveal_results }

def roomFixE : Room := { roomFixA with game := some gameFixE }

/-- The room produced by completeReveal on roomFixE at time 100: round 1 of
3 completed, game moves to round_end. -/
def resultFixE : Room :=
  { roomFixA with game := some { gameFixA with
      rounds := [{ roundFixE with status := RoundStatus.completed, finishedAt := some 100 }],
      status := GameStatus.round_end } }

/-- A guess scoring 0 against the prompt "a blue cat" (used to exercise
the stumper bonus path). -/
def guessFixZ : Guess :=
  { id := "gz", imageId := "img1", playerId := "p2",
    guessText := "zzz", submittedAt := 4, score := none }

/-- A scoring-phase room whose only guesses entry is an orphan: the imageId
"ghost" matches no selection. -/
def guessFixOrphan : Guess :=
  { id := "g9", imageId := "ghost", playerId := "p1",
    guessText := "wild guess", submittedAt := 11, score := none }

def roundFixF : Round :=
  { roundFixA with
    guesses := [("ghost", [("p1", guessFixOrphan)])],
    status := RoundStatus.scoring }

def gameFixF : Game :=
  { gameFixA with rounds := [roundFixF], status := GameStatus.scoring }

def roomFixF : Room := { roomFixA with game := some gameFixF }

/-- The room produced by scoreRound on roomFixF: the orphan entry is
carried over unscored, nobody earns points, no bonus is recorded, and the
round still transitions to reveal_results. -/
def resultFixF : Room :=
  { roomFixA with game := some { gameFixA with
      rounds := [{ roundFixF with status := RoundStatus.reveal_results }],
      leaderboard :=
        { scores := [("p1", mkPlayerScore "p1" "Alice"), ("p2", mkPlayerScore "p2" "Bob")],
          rankings := ["p1", "p2"] },
      status := GameStatus.reveal_results }}

/-! ## Map lemmas -/

theorem mapGet_mapSet {V : Type} (m : JSMap V) (k k2 : String) (v : V) :
    mapGet (mapSet m k v) k2 = if k2 = k then some v else mapGet m k2 := by
  induction m with
  | nil =>
    by_cases h : k = k2 <;> simp [mapSet, mapGet, h] <;> simp [Ne.symm h]
  | cons hd tl ih =>
    obtain ⟨k1, v1⟩ := hd
    by_cases h1 : k1 = k
    · subst h1
      by_cases h2 : k1 = k2 <;> simp [mapSet, mapGet, h2] <;> simp [Ne.symm h2]
    · by_cases h2 : k1 = k2
      · subst h2
        simp [mapSet, mapGet, h1, Ne.symm h1]
      · simp [mapSet, mapGet, h1, h2, ih]

theorem mapGet_eq_none_of_not_mem {V : Type} {m : JSMap V} {k : String}
    (h : k ∉ mapKeys m) : mapGet m k = none := by
  induction m with
  | nil => rfl
  | cons hd tl ih =>
    simp [mapKeys] at h
    simp [mapGet, h.1, ih (by simp [mapKeys, h.2])]
    intro hc
    exact absurd hc.symm h.1

theorem mapSet_of_not_mem {V : Type} {m : JSMap V} {k : String} (v : V)
    (h : k ∉ mapKeys m) : mapSet m k v = m ++ [(k, v)] := by
  induction m with
  | nil => rfl
  | cons hd tl ih =>
    simp [mapKeys] at h
    simp [mapSet, h.1, ih (by simp [mapKeys, h.2])]
    intro hc
    exact absurd hc.symm h.1

theorem mapKeys_mapSet_of_mem {V : Type} {m : JSMap V} {k : String} (v : V)
    (h : k ∈ mapKeys m) : mapKeys (mapSet m k v) = mapKeys m := by
  induction m with
  | nil => simp [mapKeys] at h
  | cons hd tl ih =>
    obtain ⟨k1, v1⟩ := hd
    by_cases h1 : k1 = k
    · subst h1; simp [mapSet, mapKeys]
    · have h2 : k ∈ mapKeys tl := by
        simp [mapKeys] at h ⊢
        rcases h with h | h
        · exact absurd h.symm h1
        · exact h
      show mapKeys (if k1 = k then (k, v) :: tl else (k1, v1) :: mapSet tl k v) =
        mapKeys ((k1, v1) :: tl)
      rw [if_neg h1]
      unfold mapKeys at ih ⊢
      simp only [List.map_cons]
      rw [ih h2]

theorem mapGet_of_mem_of_nodup {V : Type} {m : JSMap V} {p : String × V}
    (hnd : mapWF m) (hm : p ∈ m) : mapGet m p.1 = some p.2 := by
  induction m with
  | nil => simp at hm
  | cons hd tl ih =>
    unfold mapWF at hnd
    rw [List.map_cons, List.nodup_cons] at hnd
    rcases List.mem_cons.mp hm with hm | hm
    · subst hm; simp [mapGet]
    · have hne : hd.1 ≠ p.1 := by
        intro hc
        exact hnd.1 (by rw [hc]; exact List.mem_map_of_mem Prod.fst hm)
      simp [mapGet, hne, ih hnd.2 hm]

theorem foldl_mapSet_of_nodup {V W : Type} (g : String × V → W) :
    ∀ (l : List (String × V)) (acc : JSMap W),
    (l.map Prod.fst).Nodup → (∀ p ∈ l, p.1 ∉ mapKeys acc) →
    l.foldl (fun m p => mapSet m p.1 (g p)) acc = acc ++ l.map (fun p => (p.1, g p))
  | [], acc, _, _ => by simp
  | p :: rest, acc, hnd, hdisj => by
    simp only [List.foldl_cons, List.map_cons]
    rw [mapSet_of_not_mem (g p) (hdisj p (by simp))]
    rw [foldl_mapSet_of_nodup g rest (acc ++ [(p.1, g p)])
      (by simpa using hnd.of_cons)
      (by
        intro q hq
        have h1 : q.1 ∉ mapKeys acc := hdisj q (List.mem_cons_of_mem p hq)
        have h2 : q.1 ≠ p.1 := by
          rw [List.map_cons, List.nodup_cons] at hnd
          intro hc
          exact hnd.1 (hc ▸ List.mem_map_of_mem Prod.fst hq)
        simp [mapKeys] at h1 ⊢
        exact ⟨h1, h2⟩)]
    simp

theorem fromEntries_eq_self {V : Type} {m : JSMap V} (hnd : mapWF m) :
    fromEntries m = m := by
  unfold fromEntries
  rw [foldl_mapSet_of_nodup Prod.snd m [] hnd (by simp [mapKeys])]
  simp

/-! ## Serialization round-trip lemmas -/

theorem deserializeRound_serializeRound {rd : Round} (h : RoundWF rd) :
    deserializeRound (serializeRound rd) = rd := by
  obtain ⟨hp, hs, hg, hgi, hb, hsc⟩ := h
  cases rd with
  | mk rdid rn prompts sels guesses cri csi bp sc st sa fa =>
    have hmap : ∀ p ∈ guesses,
        ((fun q : String × JSObject Guess => (q.1, q.2)) ∘
          (fun q : String × JSMap Guess => (q.1, fromEntries q.2))) p = id p := by
      intro p hpmem
      obtain ⟨k, gm⟩ := p
      simp [fromEntries_eq_self (hgi (k, gm) hpmem)]
    simp only [serializeRound, deserializeRound, deserializeGuesses, objEntries,
      List.map_map]
    rw [fromEntries_eq_self hp, fromEntries_eq_self hs, fromEntries_eq_self hb,
      fromEntries_eq_self hsc, List.map_congr_left hmap, List.map_id]

theorem deserializeGame_serializeGame {g : Game} (h : GameWF g) :
    deserializeGame (serializeGame g) = g := by
  obtain ⟨hlb, hrds⟩ := h
  cases g with
  | mk gid grid st cr rounds lb ca sa fa =>
    cases lb with
    | mk scores rankings =>
      have hmap : ∀ rd ∈ rounds,
          (deserializeRound ∘ serializeRound) rd = id rd := by
        intro rd hrd
        simpa using deserializeRound_serializeRound (hrds rd hrd)
      simp only [serializeGame, deserializeGame, deserializeLeaderboard, objEntries,
        List.map_map]
      rw [fromEntries_eq_self hlb, List.map_congr_left hmap, List.map_id]

theorem deserializeRoom_serializeRoom {r : Room} (h : RoomWF r) :
    deserializeRoom (serializeRoom r) = r := by
  unfold RoomWF at h
  obtain ⟨hpl, hg⟩ := h
  have hgame : Option.map deserializeGame (Option.map serializeGame r.game) = r.game := by
    cases hr : r.game with
    | none => rfl
    | some g =>
      have hg2 : GameWF g := by rw [hr] at hg; exact hg
      show some (deserializeGame (serializeGame g)) = some g
      rw [deserializeGame_serializeGame hg2]
  simp only [serializeRoom, deserializeRoom, objEntries]
  rw [fromEntries_eq_self hpl, hgame]

/-! ## Similarity and point-award lemmas -/

theorem calculateSimilarityScore_eq_amended (a b : String) :
    calculateSimilarityScore a b = similarityAmendedFormula a b := by
  unfold calculateSimilarityScore similarityAmendedFormula
  by_cases h : jsTrim (jsToLower a.data) = jsTrim (jsToLower b.data)
  · simp only [if_pos h]
  · simp only [if_neg h]
    rw [← List.toFinset_append, List.card_toFinset,
      List.countP_eq_length_filter]
    congr 2
    ring_nf

theorem calculatePoints_eq_of_nodup (scores : List (String × ℚ))
    (c : String) (h0 : scores ≠ []) (hnd : (scores.map Prod.fst).Nodup) :
    calculatePoints scores c =
      (if meanQ (scores.map Prod.snd) < 40 then
        mapSet (scores.map (fun p => (p.1, jsRound p.2))) c
          (((mapGet (scores.map (fun p => (p.1, jsRound p.2))) c).getD 0) + 50)
      else scores.map (fun p => (p.1, jsRound p.2))) := by
  unfold calculatePoints
  rw [if_neg h0]
  rw [foldl_mapSet_of_nodup (fun p => jsRound p.2) scores [] hnd
    (by intro p hp; simp [mapKeys])]
  simp only [List.nil_append, meanQ, List.length_map]

theorem mapWF_map_value {V W : Type} (f : String × V → W)
    {m : List (String × V)} (hnd : (m.map Prod.fst).Nodup) :
    mapWF (m.map (fun p => (p.1, f p))) := by
  unfold mapWF
  rw [List.map_map]
  simpa using hnd

theorem mapGet_map_of_mem {V W : Type} (f : String × V → W)
    {m : List (String × V)} {p : String × V} (hnd : (m.map Prod.fst).Nodup)
    (hm : p ∈ m) :
    mapGet (m.map (fun q => (q.1, f q))) p.1 = some (f p) := by
  have hmem : ((p.1, f p) : String × W) ∈ m.map (fun q => (q.1, f q)) := by
    have := List.mem_map_of_mem (fun q : String × V => (q.1, f q)) hm
    simpa using this
  exact mapGet_of_mem_of_nodup (mapWF_map_value f hnd) hmem

/-! ## Sorting lemmas for the rankings -/

theorem insertScoreDesc_perm (x : PlayerScore) (l : List PlayerScore) :
    List.Perm (insertScoreDesc x l) (x :: l) := by
  induction l with
  | nil => rfl
  | cons y ys ih =>
    unfold insertScoreDesc
    split
    · rfl
    · exact ((ih.cons y).trans (List.Perm.swap x y ys))

theorem sortByTotalScoreDesc_perm (l : List PlayerScore) :
    List.Perm (sortByTotalScoreDesc l) l := by
  induction l with
  | nil => rfl
  | cons x xs ih =>
    exact (insertScoreDesc_perm x (sortByTotalScoreDesc xs)).trans (ih.cons x)

theorem insertScoreDesc_pairwise (jn : String → ℚ) (x : PlayerScore)
    (l : List PlayerScore)
    (h1 : l.Pairwise (fun a b => a.totalScore ≥ b.totalScore))
    (h2 : l.Pairwise (fun a b => a.totalScore > b.totalScore ∨
      (a.totalScore = b.totalScore ∧ jn a.playerId ≤ jn b.playerId)))
    (hx : ∀ y ∈ l, jn x.playerId ≤ jn y.playerId) :
    (insertScoreDesc x l).Pairwise (fun a b => a.totalScore ≥ b.totalScore) ∧
    (insertScoreDesc x l).Pairwise (fun a b => a.totalScore > b.totalScore ∨
      (a.totalScore = b.totalScore ∧ jn a.playerId ≤ jn b.playerId)) := by
  induction l with
  | nil => simp [insertScoreDesc]
  | cons y ys ih =>
    rw [List.pairwise_cons] at h1 h2
    unfold insertScoreDesc
    by_cases hc : x.totalScore ≥ y.totalScore
    · rw [if_pos hc]
      have hge : ∀ z ∈ y :: ys, x.totalScore ≥ z.totalScore := by
        intro z hz
        rcases List.mem_cons.mp hz with hz | hz
        · exact hz ▸ hc
        · exact le_trans (h1.1 z hz) hc
      constructor
      · exact List.pairwise_cons.mpr ⟨hge, List.pairwise_cons.mpr h1⟩
      · refine List.pairwise_cons.mpr ⟨?_, List.pairwise_cons.mpr h2⟩
        intro z hz
        rcases lt_or_eq_of_le (hge z hz) with hlt | heq
        · exact Or.inl hlt
        · exact Or.inr ⟨heq.symm, hx z hz⟩
    · rw [if_neg hc]
      push_neg at hc
      have hmem : ∀ z ∈ insertScoreDesc x ys, z = x ∨ z ∈ ys := by
        intro z hz
        have := (insertScoreDesc_perm x ys).mem_iff.mp hz
        rcases List.mem_cons.mp this with h | h
        · exact Or.inl h
        · exact Or.inr h
      obtain ⟨ih1, ih2⟩ := ih h1.2 h2.2 (fun z hz => hx z (List.mem_cons_of_mem y hz))
      constructor
      · refine List.pairwise_cons.mpr ⟨?_, ih1⟩
        intro z hz
        rcases hmem z hz with hz | hz
        · exact hz ▸ le_of_lt hc
        · exact h1.1 z hz
      · refine List.pairwise_cons.mpr ⟨?_, ih2⟩
        intro z hz
        rcases hmem z hz with hz | hz
        · exact Or.inl (hz ▸ hc)
        · exact h2.1 z hz

theorem sortByTotalScoreDesc_pairwise (jn : String → ℚ) (l : List PlayerScore)
    (hR : l.Pairwise (fun a b => jn a.playerId ≤ jn b.playerId)) :
    (sortByTotalScoreDesc l).Pairwise (fun a b => a.totalScore ≥ b.totalScore) ∧
    (sortByTotalScoreDesc l).Pairwise (fun a b => a.totalScore > b.totalScore ∨
      (a.totalScore = b.totalScore ∧ jn a.playerId ≤ jn b.playerId)) := by
  induction l with
  | nil => constructor <;> simp [sortByTotalScoreDesc]
  | cons x xs ih =>
    rw [List.pairwise_cons] at hR
    obtain ⟨ih1, ih2⟩ := ih hR.2
    exact insertScoreDesc_pairwise jn x (sortByTotalScoreDesc xs) ih1 ih2
      (fun y hy => hR.1 y ((sortByTotalScoreDesc_perm xs).mem_iff.mp hy))

/-! ## Index lemmas -/

theorem listGetNum_listSetNum {α : Type} {l : List α} {q : ℚ} {x : α} (a : α)
    (h : listGetNum l q = some x) :
    listGetNum (listSetNum l q a) q = some a := by
  unfold listGetNum listSetNum at *
  by_cases hc : q.den = 1 ∧ 0 ≤ q.num ∧ q.num.toNat < l.length
  · rw [if_pos hc]
    have hlen : (l.set q.num.toNat a).length = l.length := by simp
    rw [if_pos (by rw [hlen]; exact hc)]
    rw [List.get?_eq_getElem?, List.getElem?_set_self (by omega)]
  · rw [if_neg hc] at h
    exact absurd h (by simp)

/-! ## Shape lemmas for the service operations -/

theorem scoreRound_ok_shape {room r' : Room} (h : scoreRound room = .ok r') :
    ∃ g, r'.game = some g ∧ g.status = GameStatus.reveal_results ∧
      (listGetNum g.rounds (g.currentRound - 1)).map Round.status =
        some RoundStatus.reveal_results ∧
      g.leaderboard.rankings =
        (sortByTotalScoreDesc (g.leaderboard.scores.map Prod.snd)).map
          PlayerScore.playerId := by
  unfold scoreRound at h
  cases hg : room.game with
  | none => simp only [hg] at h; exact absurd h (by simp)
  | some game =>
    simp only [hg] at h
    cases hcr : listGetNum game.rounds (game.currentRound - 1) with
    | none => simp only [hcr] at h; exact absurd h (by simp)
    | some currentRound =>
      simp only [hcr] at h
      by_cases hst : currentRound.status ≠ RoundStatus.scoring
      · rw [if_pos hst] at h; exact absurd h (by simp)
      · rw [if_neg hst] at h
        simp only [Except.ok.injEq] at h
        subst h
        refine ⟨_, rfl, rfl, ?_, rfl⟩
        rw [show ({ game with
            rounds := listSetNum game.rounds (game.currentRound - 1) _,
            leaderboard := _, status := GameStatus.reveal_results } : Game).currentRound
          = game.currentRound from rfl]
        rw [listGetNum_listSetNum _ hcr]
        rfl

theorem submitGuess_ok_shape {room : Room} {game : Game} {cr : Round}
    (playerId imageId guessText guessId : String) (now : ℚ)
    (hg : room.game = some game)
    (hcr : listGetNum game.rounds (game.currentRound - 1) = some cr)
    (hst : cr.status = RoundStatus.reveal_guess) :
    ∃ r' b, submitGuess room playerId imageId guessText guessId now = .ok (r', b) ∧
      storedGuess r' imageId playerId =
        some { id := guessId, imageId := imageId, playerId := playerId,
               guessText := guessText, submittedAt := now, score := none } := by
  have key : ∀ (cr2 : Round) (gstat : GameStatus),
      cr2.guesses = mapSet cr.guesses imageId
        (mapSet ((mapGet cr.guesses imageId).getD []) playerId
          { id := guessId, imageId := imageId, playerId := playerId,
            guessText := guessText, submittedAt := now, score := none }) →
      storedGuess { room with game := some { game with
          rounds := listSetNum game.rounds (game.currentRound - 1) cr2,
          status := gstat } } imageId playerId =
        some { id := guessId, imageId := imageId, playerId := playerId,
               guessText := guessText, submittedAt := now, score := none } := by
    intro cr2 gstat hcg
    show (listGetNum (listSetNum game.rounds (game.currentRound - 1) cr2)
        (game.currentRound - 1)).bind
        (fun c => (mapGet c.guesses imageId).bind (fun gm => mapGet gm playerId)) = _
    rw [listGetNum_listSetNum cr2 hcr]
    show (mapGet cr2.guesses imageId).bind (fun gm => mapGet gm playerId) = _
    rw [hcg, mapGet_mapSet, if_pos rfl]
    show mapGet (mapSet ((mapGet cr.guesses imageId).getD []) playerId _) playerId = _
    rw [mapGet_mapSet, if_pos rfl]
  unfold submitGuess
  simp only [hg, hcr]
  rw [if_neg (by simp [hst])]
  refine ⟨_, _, rfl, ?_⟩
  apply key
  split_ifs <;> rfl

theorem submitPrompt_overwrite_shape {room : Room} {game : Game} {cr : Round}
    (playerId prompt : String) (now : ℚ)
    (hg : room.game = some game)
    (hcr : listGetNum game.rounds (game.currentRound - 1) = some cr)
    (hst : cr.status = RoundStatus.prompt_submit)
    (hdup : mapGet cr.prompts playerId ≠ none) :
    ∃ r', submitPrompt room playerId prompt now =
        .ok (r', decide (cr.prompts.length = room.players.length)) ∧
      storedPrompt r' playerId =
        some { playerId := playerId, prompt := prompt, submittedAt := now,
               images := [], status := PromptStatus.pending } ∧
      (currentRoundOf r').map (fun c => mapKeys c.prompts) =
        some (mapKeys cr.prompts) ∧
      (currentRoundOf r').map Round.status =
        some (if cr.prompts.length = room.players.length then
          RoundStatus.image_generate else RoundStatus.prompt_submit) := by
  have hmem : playerId ∈ mapKeys cr.prompts := by
    by_contra hc
    exact hdup (mapGet_eq_none_of_not_mem hc)
  have hkeys : mapKeys (mapSet cr.prompts playerId
      { playerId := playerId, prompt := prompt, submittedAt := now,
        images := [], status := PromptStatus.pending }) = mapKeys cr.prompts :=
    mapKeys_mapSet_of_mem _ hmem
  have hlen : (mapSet cr.prompts playerId
      { playerId := playerId, prompt := prompt, submittedAt := now,
        images := [], status := PromptStatus.pending }).length = cr.prompts.length := by
    have h2 := congrArg List.length hkeys
    simpa [mapKeys] using h2
  have key : ∀ (cr2 : Round) (gstat : GameStatus),
      cr2.prompts = mapSet cr.prompts playerId
        { playerId := playerId, prompt := prompt, submittedAt := now,
          images := [], status := PromptStatus.pending } →
      (storedPrompt { room with game := some { game with
          rounds := listSetNum game.rounds (game.currentRound - 1) cr2,
          status := gstat } } playerId =
        some { playerId := playerId, prompt := prompt, submittedAt := now,
               images := [], status := PromptStatus.pending }) ∧
      (currentRoundOf { room with game := some { game with
          rounds := listSetNum game.rounds (game.currentRound - 1) cr2,
          status := gstat } }).map (fun c => mapKeys c.prompts) =
        some (mapKeys cr.prompts) := by
    intro cr2 gstat hcp
    have hcur : currentRoundOf { room with game := some { game with
        rounds := listSetNum game.rounds (game.currentRound - 1) cr2,
        status := gstat } } = some cr2 := by
      show (listGetNum (listSetNum game.rounds (game.currentRound - 1) cr2)
        (game.currentRound - 1)) = some cr2
      exact listGetNum_listSetNum cr2 hcr
    constructor
    · show (currentRoundOf _).bind (fun c => mapGet c.prompts playerId) = _
      rw [hcur]
      show mapGet cr2.prompts playerId = _
      rw [hcp, mapGet_mapSet, if_pos rfl]
    · rw [hcur]
      show some (mapKeys cr2.prompts) = _
      rw [hcp, hkeys]
  unfold submitPrompt
  simp only [hg, hcr]
  rw [if_neg (by simp [hst])]
  rw [hlen]
  refine ⟨_, rfl, ?_, ?_, ?_⟩
  · exact (key _ _ (by split_ifs <;> rfl)).1
  · exact (key _ _ (by split_ifs <;> rfl)).2
  · have hcur : ∀ (cr2 : Round) (gstat : GameStatus),
        currentRoundOf { room with game := some { game with
          rounds := listSetNum game.rounds (game.currentRound - 1) cr2,
          status := gstat } } = some cr2 := by
      intro cr2 gstat
      show (listGetNum (listSetNum game.rounds (game.currentRound - 1) cr2)
        (game.currentRound - 1)) = some cr2
      exact listGetNum_listSetNum cr2 hcr
    rw [hcur]
    show some (if cr.prompts.length = room.players.length then
        ({ cr with
            prompts := mapSet cr.prompts playerId
              { playerId := playerId, prompt := prompt, submittedAt := now,
                images := [], status := PromptStatus.pending },
            status := RoundStatus.image_generate } : Round)
      else { cr with
            prompts := mapSet cr.prompts playerId
              { playerId := playerId, prompt := prompt, submittedAt := now,
                images := [], status := PromptStatus.pending } }).status = _
    split_ifs
    · rfl
    · show some cr.status = _
      rw [hst]

theorem completeReveal_noop {room : Room} {game : Game} {cr : Round} (now : ℚ)
    (hg : room.game = some game)
    (hcr : listGetNum game.rounds (game.currentRound - 1) = some cr)
    (hst : game.status ≠ GameStatus.reveal_results) :
    completeReveal room now = .ok room := by
  unfold completeReveal
  simp only [hg, hcr]
  rw [if_pos hst]

theorem completeReveal_idem {room r1 : Room} (now1 now2 : ℚ)
    (hst : room.game.map Game.status = some GameStatus.reveal_results)
    (h1 : completeReveal room now1 = .ok r1) :
    completeReveal r1 now2 = .ok r1 := by
  cases hg : room.game with
  | none => rw [hg] at hst; exact absurd hst (by simp)
  | some game =>
    have hstatus : game.status = GameStatus.reveal_results := by
      rw [hg] at hst
      simpa using hst
    cases hcr : listGetNum game.rounds (game.currentRound - 1) with
    | none =>
      unfold completeReveal at h1
      simp only [hg, hcr] at h1
      exact absurd h1 (by simp)
    | some cr =>
      unfold completeReveal at h1
      simp only [hg, hcr] at h1
      rw [if_neg (by simp [hstatus])] at h1
      by_cases hge : game.currentRound ≥ room.settings.roundCount
      · rw [if_pos hge] at h1
        simp only [Except.ok.injEq] at h1
        subst h1
        unfold completeReveal
        have hcr2 := listGetNum_listSetNum
          ({ cr with status := RoundStatus.completed, finishedAt := some now1 }) hcr
        simp only [hcr2]
        rw [if_pos (by simp)]
      · rw [if_neg hge] at h1
        simp only [Except.ok.injEq] at h1
        subst h1
        unfold completeReveal
        have hcr2 := listGetNum_listSetNum
          ({ cr with status := RoundStatus.completed, finishedAt := some now1 }) hcr
        simp only [hcr2]
        rw [if_pos (by simp)]

/-! ## Code generator lemmas -/

theorem jsCharIndex_of_rand (rand : ℕ → ℚ) (h : ∀ i, 0 ≤ rand i ∧ rand i < 1)
    (i : ℕ) :
    ∃ c, jsCharIndex CHARACTERS.data ⌊rand i * (CHARACTERS.data.length : ℚ)⌋ = [c] ∧
      c ∈ CHARACTERS.data := by
  have h0 := (h i).1
  have h1 := (h i).2
  have hn : 0 < CHARACTERS.data.length := by decide
  have hlow : 0 ≤ ⌊rand i * (CHARACTERS.data.length : ℚ)⌋ := by
    apply Int.floor_nonneg.mpr
    positivity
  have hup : ⌊rand i * (CHARACTERS.data.length : ℚ)⌋ < (CHARACTERS.data.length : ℤ) := by
    apply Int.floor_lt.mpr
    push_cast
    calc rand i * (CHARACTERS.data.length : ℚ)
        < 1 * (CHARACTERS.data.length : ℚ) := by
          apply mul_lt_mul_of_pos_right h1
          exact_mod_cast hn
      _ = (CHARACTERS.data.length : ℚ) := one_mul _
  have htn : (⌊rand i * (CHARACTERS.data.length : ℚ)⌋).toNat < CHARACTERS.data.length := by
    omega
  unfold jsCharIndex
  rw [dif_pos ⟨hlow, htn⟩]
  exact ⟨_, rfl, List.get_mem _ _ _⟩

theorem generateRoomCode_fold (rand : ℕ → ℚ) (h : ∀ i, 0 ≤ rand i ∧ rand i < 1) :
    ∀ (idxs : List ℕ) (acc : List Char),
    (idxs.foldl (fun code i =>
        code ++ jsCharIndex CHARACTERS.data ⌊rand i * (CHARACTERS.data.length : ℚ)⌋)
      acc).length = acc.length + idxs.length ∧
    ∀ c ∈ idxs.foldl (fun code i =>
        code ++ jsCharIndex CHARACTERS.data ⌊rand i * (CHARACTERS.data.length : ℚ)⌋)
      acc, c ∈ acc ∨ c ∈ CHARACTERS.data
  | [], acc => by
    constructor
    · simp
    · intro c hc
      simp at hc
      exact Or.inl hc
  | i :: is, acc => by
    obtain ⟨c, hc, hcm⟩ := jsCharIndex_of_rand rand h i
    simp only [List.foldl_cons, hc]
    obtain ⟨ihl, ihm⟩ := generateRoomCode_fold rand h is (acc ++ [c])
    constructor
    · rw [ihl]
      simp only [List.length_append, List.length_cons, List.length_nil]
      omega
    · intro c2 hc2
      rcases ihm c2 hc2 with hm | hm
      · rcases List.mem_append.mp hm with hm | hm
        · exact Or.inl hm
        · simp at hm
          exact Or.inr (hm ▸ hcm)
      · exact Or.inr hm

theorem generateRoomCode_spec (rand : ℕ → ℚ)
    (h : ∀ i, 0 ≤ rand i ∧ rand i < 1) (len : ℕ) :
    (generateRoomCode rand len).length = len ∧
    ∀ c ∈ generateRoomCode rand len, c ∈ CHARACTERS.data := by
  unfold generateRoomCode
  obtain ⟨hl, hm⟩ := generateRoomCode_fold rand h (List.range len) []
  refine ⟨by simpa using hl, ?_⟩
  intro c hc
  rcases hm c hc with hm2 | hm2
  · simp at hm2
  · exact hm2

theorem isValidRoomCode_iff (s : String) :
    isValidRoomCode s = true ↔
      (4 ≤ s.length ∧ s.length ≤ 8 ∧ ∀ c ∈ s.data, c ∈ CHARACTERS.data) := by
  unfold isValidRoomCode
  simp only [decide_eq_true_eq, List.all_eq_true, decide_eq_true_eq]
  constructor
  · rintro ⟨-, ⟨-, hall⟩, h4, h8⟩
    refine ⟨h4, h8, ?_⟩
    intro c hc
    have := hall c hc
    rwa [List.elem_iff] at this
  · rintro ⟨h4, h8, hall⟩
    have hne : s.data ≠ [] := by
      intro hc
      have : s.length = 0 := by simp [String.length, hc]
      omega
    refine ⟨?_, ⟨hne, ?_⟩, h4, h8⟩
    · intro hc
      subst hc
      simp at hne
    · intro c hc
      rw [List.elem_iff]
      exact hall c hc

/-! ## Claim theorems -/

attribute [local semireducible] Rat.add Rat.sub Rat.mul Rat.inv Rat.ofScientific in
/-- C1: evaluation of the code at the failing input. In roomFixA (phase
reveal_guess, img1 is the image selected by player p1), submitGuess accepts
p1's guess on p1's own image img1 and stores it with guess.playerId = p1 —
the very player whose selection references img1 — so the documented
invariant that a player never has a Guess for an image they submitted is
violated by the stored state. -/
theorem C1_self_guess_accepted_eval :
    ((roomOfPair (submitGuess roomFixA "p1" "img1" "my own prompt" "g1" 10)).bind
        (fun r => storedGuess r "img1" "p1")).map Guess.playerId = some "p1" ∧
    ((roundFixA.selections.map Prod.snd).find?
        (fun s => s.imageId == "img1")).map ImageSelection.playerId = some "p1" := by
  decide

attribute [local semireducible] Rat.add Rat.sub Rat.mul Rat.inv Rat.ofScientific in
/-- C2: evaluation of the code at the failing input. In roomFixB the
scoring phase computes round scores containing only p1 (p2's image drew
the only guess). After scoreRound, p1's roundScores is [100] but p2's is
still [] — p2 has no entry for the scored round, so the roundScores
sequences have unequal lengths, contradicting the claim that players
absent from round.scores are appended a 0. -/
theorem C2_absent_player_not_appended_eval :
    (roomOf (scoreRound roomFixB)).bind
        (fun r => (lbEntry r "p2").map PlayerScore.roundScores) = some [] ∧
    (roomOf (scoreRound roomFixB)).bind
        (fun r => (lbEntry r "p1").map PlayerScore.roundScores) = some [100] ∧
    (roomOf (scoreRound roomFixB)).bind
        (fun r => (currentRoundOf r).map (fun c => mapKeys c.scores)) = some ["p1"] := by
  decide

attribute [local semireducible] Rat.add Rat.sub Rat.mul Rat.inv Rat.ofScientific in
/-- C3: counterexample to the claim as stated. On original "cat cat" and
guess "cat", the code returns 100 (the duplicated original token "cat" is
counted twice by the filter-based intersection, giving k = 2), while the
claimed set-Jaccard formula gives k = 1 and a final score of 77. -/
theorem C3_set_jaccard_counterexample :
    calculateSimilarityScore "cat cat" "cat" = 100 ∧
    similarityClaimFormula "cat cat" "cat" = 77 := by
  decide

/-- C3 (amended): for every pair of strings, calculateSimilarityScore
returns 100 when the two strings are equal after lowercasing and trimming,
and otherwise round(100·(0.6·k + 0.4·l)) clamped to [0,100], where l is
the normalized Levenshtein similarity over the full lowercased-trimmed
strings and k is the count, with multiplicity, of the original's tokens
that occur among the guess's tokens, divided by the cardinality of the
union of the two token sets (the claim's set-intersection numerator is
amended to this multiset count, which the counterexample forces). -/
theorem C3_similarity_formula_amended (a b : String) :
    calculateSimilarityScore a b = similarityAmendedFormula a b :=
  calculateSimilarityScore_eq_amended a b

/-- C4: point award. calculatePoints on an empty score list awards no
points; on a non-empty list with pairwise distinct player ids (score lists
in scoreRound come from a Map, one entry per guesser) every guesser other
than the creator is awarded round(score), the creator receives an
additional +50 exactly when the mean score is below 40 (on top of their
own round(score) when they also appear as a guesser), and otherwise
receives only their own entry; and the per-image step of scoreRound
records bonusPoints[imageId] = 50 exactly when the image's guess list is
non-empty with mean similarity below 40 (an image with no guesses gets no
bonus: in JS the empty mean is NaN and NaN < 40 is false). -/
theorem C4_point_award :
    (∀ c : String, calculatePoints [] c = []) ∧
    (∀ (scores : List (String × ℚ)) (c : String),
      scores ≠ [] → (scores.map Prod.fst).Nodup →
      ((∀ p ∈ scores, p.1 ≠ c →
          mapGet (calculatePoints scores c) p.1 = some (jsRound p.2)) ∧
        (meanQ (scores.map Prod.snd) < 40 →
          mapGet (calculatePoints scores c) c =
            some (((mapGet (scores.map (fun p => (p.1, jsRound p.2))) c).getD 0) + 50)) ∧
        (¬ meanQ (scores.map Prod.snd) < 40 →
          mapGet (calculatePoints scores c) c =
            mapGet (scores.map (fun p => (p.1, jsRound p.2))) c))) ∧
    (∀ (sels : JSMap ImageSelection) (prompts : JSMap PromptSubmission)
        (acc : ScoreAcc) (imageId : String) (gmap : JSMap Guess)
        (sel : ImageSelection) (sub : PromptSubmission),
      (sels.map Prod.snd).find? (fun s => s.imageId == imageId) = some sel →
      mapGet prompts sel.playerId = some sub →
      mapGet acc.bonusPoints imageId = none →
      (mapGet (processImage sels prompts acc (imageId, gmap)).bonusPoints imageId =
          some 50 ↔
        meanLt (gmap.map (fun p => calculateSimilarityScore sub.prompt p.2.guessText))
          40)) := by
  refine ⟨?_, ?_, ?_⟩
  · intro c
    simp [calculatePoints]
  · intro scores c h0 hnd
    rw [calculatePoints_eq_of_nodup scores c h0 hnd]
    refine ⟨?_, ?_, ?_⟩
    · intro p hp hpc
      split_ifs with hm
      · rw [mapGet_mapSet, if_neg hpc]
        exact mapGet_map_of_mem (fun q => jsRound q.2) hnd hp
      · exact mapGet_map_of_mem (fun q => jsRound q.2) hnd hp
    · intro hlt
      rw [if_pos hlt, mapGet_mapSet, if_pos rfl]
    · intro hge
      rw [if_neg hge]
  · intro sels prompts acc imageId gmap sel sub hfind hprompt hfresh
    unfold processImage
    simp only [hfind, hprompt]
    have hmm2 : ((gmap.map (fun p =>
          ((p.1 : String), calculateSimilarityScore sub.prompt p.2.guessText))).map
            Prod.snd) =
        gmap.map (fun p => calculateSimilarityScore sub.prompt p.2.guessText) := by
      rw [List.map_map]
      rfl
    show mapGet
        (if meanLt ((gmap.map (fun p =>
            ((p.1 : String), calculateSimilarityScore sub.prompt p.2.guessText))).map
              Prod.snd) 40 then
          mapSet acc.bonusPoints imageId 50
        else acc.bonusPoints) imageId = some 50 ↔ _
    rw [hmm2]
    split_ifs with hcond
    · rw [mapGet_mapSet, if_pos rfl]
      exact iff_of_true rfl hcond
    · exact iff_of_false (by rw [hfresh]; simp) hcond

attribute [local semireducible] Rat.add Rat.sub Rat.mul Rat.inv Rat.ofScientific in
set_option maxRecDepth 8000 in
/-- C4 witness: concrete applications of C4_point_award. Guessers a and b
with scores 10 and 20 (mean 15 < 40) each earn their rounded score and the
creator c earns the 50-point stumper bonus; and the per-image scoring step
on prompt "a blue cat" with the single guess "zzz" (similarity 0, mean
0 < 40) records the 50-point bonus for the image. -/
theorem C4_point_award_witness :
    mapGet (calculatePoints [("a", 10), ("b", 20)] "c") "a" = some (jsRound 10) ∧
    mapGet (calculatePoints [("a", 10), ("b", 20)] "c") "c" =
      some (((mapGet ([("a", (10 : ℚ)), ("b", 20)].map
        (fun p => (p.1, jsRound p.2))) "c").getD 0) + 50) ∧
    mapGet (processImage roundFixA.selections roundFixA.prompts
        { guesses := [], bonusPoints := [], scores := [] }
        ("img1", [("p2", guessFixZ)])).bonusPoints "img1" = some 50 :=
  ⟨(C4_point_award.2.1 [("a", 10), ("b", 20)] "c" (by decide) (by decide)).1
      ("a", 10) (by decide) (by decide),
    (C4_point_award.2.1 [("a", 10), ("b", 20)] "c" (by decide) (by decide)).2.1
      (by decide),
    (C4_point_award.2.2 roundFixA.selections roundFixA.prompts
        { guesses := [], bonusPoints := [], scores := [] } "img1"
        [("p2", guessFixZ)]
        { playerId := "p1", imageId := "img1", selectedAt := 2 }
        { playerId := "p1", prompt := "a blue cat", submittedAt := 1,
          images := [], status := PromptStatus.ready }
        (by decide) (by decide) (by decide)).mpr (by decide)⟩

/-- C5: after every successful scoreRound, rankings is the playerIds of
the leaderboard values sorted stably by totalScore descending; it is a
permutation of the player ids in leaderboard.scores and is sorted by
totalScore descending. The tie-break: the comparator only compares
totalScore, and JS sort is stable, so ties keep the map order of
leaderboard.scores; given any reading jn of each player's joinedAt under
which that order is nondecreasing (true of reachable leaderboards, which
are built at startGame from the players map in join order), tied players
appear in nondecreasing joinedAt order — the earliest joiner ranks
higher. -/
theorem C5_rankings_sorted (room r' : Room) (g : Game) (jn : String → ℚ)
    (h : scoreRound room = .ok r') (hg : r'.game = some g)
    (horder : g.leaderboard.scores.Pairwise
      (fun a b => jn a.2.playerId ≤ jn b.2.playerId)) :
    List.Perm g.leaderboard.rankings
      (g.leaderboard.scores.map (fun e => e.2.playerId)) ∧
    g.leaderboard.rankings =
      (sortByTotalScoreDesc (g.leaderboard.scores.map Prod.snd)).map
        PlayerScore.playerId ∧
    (sortByTotalScoreDesc (g.leaderboard.scores.map Prod.snd)).Pairwise
      (fun a b => a.totalScore ≥ b.totalScore) ∧
    (sortByTotalScoreDesc (g.leaderboard.scores.map Prod.snd)).Pairwise
      (fun a b => a.totalScore > b.totalScore ∨
        (a.totalScore = b.totalScore ∧ jn a.playerId ≤ jn b.playerId)) := by
  obtain ⟨g0, hg0, hs0, hr0, hrank⟩ := scoreRound_ok_shape h
  have hgg : g0 = g := by rw [hg0] at hg; exact Option.some.inj hg
  subst hgg
  have hvals : (g0.leaderboard.scores.map Prod.snd).Pairwise
      (fun a b => jn a.playerId ≤ jn b.playerId) :=
    List.pairwise_map.mpr horder
  obtain ⟨hp1, hp2⟩ := sortByTotalScoreDesc_pairwise jn _ hvals
  refine ⟨?_, hrank, hp1, hp2⟩
  rw [hrank]
  have hperm := (sortByTotalScoreDesc_perm
    (g0.leaderboard.scores.map Prod.snd)).map PlayerScore.playerId
  simpa [List.map_map, Function.comp] using hperm

attribute [local semireducible] Rat.add Rat.sub Rat.mul Rat.inv Rat.ofScientific in
/-- C5 witness: scoreRound on roomFixC produces resultFixC, whose rankings
["p1", "p2"] are a permutation of the leaderboard ids sorted by total
score, with the joinedAt tie between the two zero-score players broken in
favour of p1, who joined first. -/
theorem C5_rankings_witness :
    List.Perm gameFixCResult.leaderboard.rankings
      (gameFixCResult.leaderboard.scores.map (fun e => e.2.playerId)) ∧
    gameFixCResult.leaderboard.rankings =
      (sortByTotalScoreDesc (gameFixCResult.leaderboard.scores.map Prod.snd)).map
        PlayerScore.playerId :=
  have happ := C5_rankings_sorted roomFixC resultFixC gameFixCResult
    (fun pid => if pid = "p1" then 0 else 1) (by decide) (by rfl) (by decide)
  ⟨happ.1, happ.2.1⟩

attribute [local semireducible] Rat.add Rat.sub Rat.mul Rat.inv Rat.ofScientific in
/-- C6: counterexample to the claim as stated. In roomFixD player p1
already has a prompt submission ("first prompt", submittedAt 1); a second
submitPrompt by p1 does not fail: it returns ok (with allSubmitted false)
and the stored submission is replaced by a fresh pending one with the new
text, so the round is changed. -/
theorem C6_second_submit_not_rejected :
    (roomOfPair (submitPrompt roomFixD "p1" "second prompt" 5)).bind
        (fun r => storedPrompt r "p1") =
      some { playerId := "p1", prompt := "second prompt", submittedAt := 5,
             images := [], status := PromptStatus.pending } ∧
    flagOfPair (submitPrompt roomFixD "p1" "second prompt" 5) = some false := by
  decide

/-- C6 (amended): in phase prompt_submit, a second submitPrompt call by a
player who already has a PromptSubmission succeeds rather than failing: it
overwrites that player's stored submission in place with a fresh pending
submission carrying the new text, leaves the set of submitting players
unchanged, reports allSubmitted for the unchanged submitter count, and
transitions the round to image_generate only in the (already-complete)
case that every player had submitted. -/
theorem C6_duplicate_submit_amended {room : Room} {game : Game} {cr : Round}
    (playerId prompt : String) (now : ℚ)
    (hg : room.game = some game)
    (hcr : listGetNum game.rounds (game.currentRound - 1) = some cr)
    (hst : cr.status = RoundStatus.prompt_submit)
    (hdup : mapGet cr.prompts playerId ≠ none) :
    ∃ r', submitPrompt room playerId prompt now =
        .ok (r', decide (cr.prompts.length = room.players.length)) ∧
      storedPrompt r' playerId =
        some { playerId := playerId, prompt := prompt, submittedAt := now,
               images := [], status := PromptStatus.pending } ∧
      (currentRoundOf r').map (fun c => mapKeys c.prompts) =
        some (mapKeys cr.prompts) ∧
      (currentRoundOf r').map Round.status =
        some (if cr.prompts.length = room.players.length then
          RoundStatus.image_generate else RoundStatus.prompt_submit) :=
  submitPrompt_overwrite_shape playerId prompt now hg hcr hst hdup

attribute [local semireducible] Rat.add Rat.sub Rat.mul Rat.inv Rat.ofScientific in
/-- C6 witness: the amended statement applied to roomFixD, where p1
already submitted. -/
theorem C6_duplicate_submit_witness :
    ∃ r', submitPrompt roomFixD "p1" "second prompt" 5 =
        .ok (r', decide (roundFixD.prompts.length = roomFixD.players.length)) ∧
      storedPrompt r' "p1" =
        some { playerId := "p1", prompt := "second prompt", submittedAt := 5,
               images := [], status := PromptStatus.pending } ∧
      (currentRoundOf r').map (fun c => mapKeys c.prompts) =
        some (mapKeys roundFixD.prompts) ∧
      (currentRoundOf r').map Round.status =
        some (if roundFixD.prompts.length = roomFixD.players.length then
          RoundStatus.image_generate else RoundStatus.prompt_submit) :=
  @C6_duplicate_submit_amended roomFixD gameFixD roundFixD "p1" "second prompt" 5
    rfl (by decide) rfl (by decide)

/-- C7: completeReveal is idempotent. Outside reveal_results it is a
no-op returning the room unchanged (given a valid game and current round);
and whenever a call in reveal_results succeeds, a second call on its
result changes nothing. -/
theorem C7_completeReveal_idempotent :
    (∀ (room : Room) (now : ℚ) (game : Game) (cr : Round),
      room.game = some game →
      listGetNum game.rounds (game.currentRound - 1) = some cr →
      game.status ≠ GameStatus.reveal_results →
      completeReveal room now = .ok room) ∧
    (∀ (room r1 : Room) (now1 now2 : ℚ),
      room.game.map Game.status = some GameStatus.reveal_results →
      completeReveal room now1 = .ok r1 →
      completeReveal r1 now2 = .ok r1) :=
  ⟨fun _ now _ _ hg hcr hst => completeReveal_noop now hg hcr hst,
   fun _ _ now1 now2 hst h1 => completeReveal_idem now1 now2 hst h1⟩

attribute [local semireducible] Rat.add Rat.sub Rat.mul Rat.inv Rat.ofScientific in
/-- C7 witness: on roomFixA (in reveal_guess) completeReveal is a no-op,
and after the transition on roomFixE (in reveal_results, producing
resultFixE in round_end) a second call returns the state unchanged. -/
theorem C7_completeReveal_witness :
    completeReveal roomFixA 5 = .ok roomFixA ∧
    completeReveal resultFixE 200 = .ok resultFixE :=
  ⟨C7_completeReveal_idempotent.1 roomFixA 5 gameFixA roundFixA rfl
      (by decide) (by decide),
    C7_completeReveal_idempotent.2 roomFixE resultFixE 100 200
      (by decide) (by decide)⟩

/-- C8: serialization round-trips. For every well-formed Room (each of its
maps holds one entry per key, as every map the service constructs does),
deserializing the serialized form rebuilds an equal Room; and the nested
guesses structure serializes as the sequence of pairs
[imageId, object(playerId, Guess)]. -/
theorem C8_serialize_round_trip :
    (∀ r : Room, RoomWF r → deserializeRoom (serializeRoom r) = r) ∧
    (∀ rd : Round, (serializeRound rd).guesses =
      rd.guesses.map (fun p => (p.1, fromEntries p.2))) :=
  ⟨fun _ h => deserializeRoom_serializeRoom h, fun _ => rfl⟩

/-- C8 witness: the round trip on the concrete room roomFixB, whose game
holds a round with nested guesses. -/
theorem C8_serialize_round_trip_witness :
    deserializeRoom (serializeRoom roomFixB) = roomFixB :=
  C8_serialize_round_trip.1 roomFixB (by decide)

/-- C9: counterexample to the claim as stated. The alphabet string
ABCDEFGHJKLMNPQRSTUVWXYZ23456789 the claim calls a 30-symbol alphabet has
32 distinct symbols (24 letters after excluding I and O, plus the 8 digits
2-9). -/
theorem C9_alphabet_size_counterexample :
    CHARACTERS.data.length = 32 ∧ CHARACTERS.data.Nodup := by
  decide

/-- C9 (amended): the alphabet has 32 distinct symbols (not 30), the
characters being ABCDEFGHJKLMNPQRSTUVWXYZ23456789 (uppercase, excluding
I, O, 0, 1); every code the generator produces at default length 4 from a
random source in [0, 1) has exactly 4 characters drawn from that
alphabet; and the validator accepts exactly the strings of 4 to 8
characters over the same alphabet. -/
theorem C9_room_code_amended :
    (CHARACTERS.data.length = 32 ∧ CHARACTERS.data.Nodup) ∧
    (∀ rand : ℕ → ℚ, (∀ i, 0 ≤ rand i ∧ rand i < 1) →
      (generateRoomCode rand 4).length = 4 ∧
      ∀ c ∈ generateRoomCode rand 4, c ∈ CHARACTERS.data) ∧
    (∀ s : String, isValidRoomCode s = true ↔
      (4 ≤ s.length ∧ s.length ≤ 8 ∧ ∀ c ∈ s.data, c ∈ CHARACTERS.data)) :=
  ⟨by decide, fun rand h => generateRoomCode_spec rand h 4, isValidRoomCode_iff⟩

/-- C9 witness: the constant random source 1/2 yields a 4-character code,
and the validator accepts the 4-character code AB29. -/
theorem C9_room_code_witness :
    (generateRoomCode (fun _ => 1/2) 4).length = 4 ∧
    isValidRoomCode "AB29" = true :=
  ⟨(C9_room_code_amended.2.1 (fun _ => 1/2)
      (fun _ => ⟨by norm_num, by norm_num⟩)).1,
    (C9_room_code_amended.2.2 "AB29").mpr (by decide)⟩

/-- C10: submitGuess accepts and stores a guess under any imageId at all —
in any state with a valid game whose current round is in reveal_guess, for
every playerId, imageId and text, the call succeeds and the guess is
recorded under guesses[imageId][playerId], with no validation of the
imageId against the round's selections or the reveal index; the per-image
loop of scoreRound leaves an entry whose imageId matches no selection
completely untouched (appended unchanged, with every guess keeping its
score field, and no points and no bonus recorded from it); and every
successful scoreRound still ends with the game and current round in
reveal_results. -/
theorem C10_unvalidated_image_ids :
    (∀ (room : Room) (game : Game) (cr : Round)
        (playerId imageId guessText guessId : String) (now : ℚ),
      room.game = some game →
      listGetNum game.rounds (game.currentRound - 1) = some cr →
      cr.status = RoundStatus.reveal_guess →
      ∃ r' b, submitGuess room playerId imageId guessText guessId now = .ok (r', b) ∧
        storedGuess r' imageId playerId =
          some { id := guessId, imageId := imageId, playerId := playerId,
                 guessText := guessText, submittedAt := now, score := none }) ∧
    (∀ (sels : JSMap ImageSelection) (prompts : JSMap PromptSubmission)
        (acc : ScoreAcc) (imageId : String) (gmap : JSMap Guess),
      (sels.map Prod.snd).find? (fun s => s.imageId == imageId) = none →
      processImage sels prompts acc (imageId, gmap) =
        { acc with guesses := acc.guesses ++ [(imageId, gmap)] }) ∧
    (∀ (room r' : Room), scoreRound room = .ok r' →
      r'.game.map Game.status = some GameStatus.reveal_results ∧
      (r'.game.bind (fun g =>
        (listGetNum g.rounds (g.currentRound - 1)).map Round.status)) =
        some RoundStatus.reveal_results) := by
  refine ⟨?_, ?_, ?_⟩
  · intro room game cr playerId imageId guessText guessId now hg hcr hst
    exact submitGuess_ok_shape playerId imageId guessText guessId now hg hcr hst
  · intro sels prompts acc imageId gmap hfind
    unfold processImage
    simp only [hfind]
  · intro room r' h
    obtain ⟨g, hg, hs, hr, -⟩ := scoreRound_ok_shape h
    rw [hg]
    exact ⟨by simp [hs], by simpa using hr⟩

attribute [local semireducible] Rat.add Rat.sub Rat.mul Rat.inv Rat.ofScientific in
set_option maxRecDepth 8000 in
/-- C10 witness: in roomFixA, p2's guess on the nonexistent image "ghost"
is accepted and stored; the per-image scoring step on the orphan entry
("ghost", ...) returns the accumulator with the entry appended untouched;
and scoreRound on roomFixF (whose only guesses entry is that orphan)
produces resultFixF with game and round in reveal_results. -/
theorem C10_unvalidated_image_ids_witness :
    (∃ r' b, submitGuess roomFixA "p2" "ghost" "wild guess" "g9" 11 = .ok (r', b) ∧
      storedGuess r' "ghost" "p2" =
        some { id := "g9", imageId := "ghost", playerId := "p2",
               guessText := "wild guess", submittedAt := 11, score := none }) ∧
    processImage roundFixA.selections roundFixA.prompts
        { guesses := [], bonusPoints := [], scores := [] }
        ("ghost", [("p1", guessFixOrphan)]) =
      { guesses := [("ghost", [("p1", guessFixOrphan)])],
        bonusPoints := [], scores := [] } ∧
    (resultFixF.game.map Game.status = some GameStatus.reveal_results ∧
      (resultFixF.game.bind (fun g =>
        (listGetNum g.rounds (g.currentRound - 1)).map Round.status)) =
        some RoundStatus.reveal_results) :=
  ⟨C10_unvalidated_image_ids.1 roomFixA gameFixA roundFixA
      "p2" "ghost" "wild guess" "g9" 11 rfl (by decide) rfl,
    C10_unvalidated_image_ids.2.1 roundFixA.selections roundFixA.prompts
      { guesses := [], bonusPoints := [], scores := [] } "ghost"
      [("p1", guessFixOrphan)] (by decide),
    C10_unvalidated_image_ids.2.2 roomFixF resultFixF (by decide)⟩

end PromptGuessr
